import Mathlib

/-!
Verification of the weekly Silverware aggregation script
(`scripts/fetch_silverware_week.mjs`).

The script is shallowly embedded: JavaScript values that flow through the
flexible field extractors are modelled by the inductive type `JVal`
(null/undefined, booleans, numbers, strings, arrays, objects), JS numbers are
modelled by `ℚ` (the script only adds, clamps and rounds currency amounts; the
claims under verification do not depend on binary floating-point rounding and
no NaN or negative-zero values arise from the modelled coercions, see `num`), and the
network is modelled by passing the fetched page payloads, and an oracle for
the order-detail endpoint, as explicit arguments.
-/

namespace Silverware

/-- Model of a (JSON-ish) JavaScript value as seen by the script.  `vnull`
stands for both `null` and `undefined` (the script never distinguishes them:
both are falsy, both coerce to 0 through its `num` helper, and missing object
fields read as `undefined`). -/
inductive JVal where
  | vnull
  | vbool (b : Bool)
  | vnum (q : ℚ)
  | vstr (s : String)
  | varr (elems : List JVal)
  | vobj (fields : List (String × JVal))

/-- JS truthiness.  `null`/`undefined`, `false`, `0` and `""` are falsy;
arrays and objects are always truthy.  (`NaN` and `-0`, the remaining falsy
numbers, do not exist in the `ℚ` model.) -/
def truthy : JVal → Bool
  | JVal.vnull => false
  | JVal.vbool b => b
  | JVal.vnum q => decide (q ≠ 0)
  | JVal.vstr s => decide (s ≠ "")
  | JVal.varr _ => true
  | JVal.vobj _ => true

/-- JS `a || b`: `a` when truthy, else `b`. -/
def jsOr (a b : JVal) : JVal := if truthy a then a else b

/-- JS `a ?? b`: `a` unless it is `null`/`undefined`. -/
def nullishOr (a b : JVal) : JVal :=
  match a with
  | JVal.vnull => b
  | v => v

/-- Optional-chained field access `o?.k`: `undefined` (= `vnull`) when the
receiver is not an object or the field is missing. -/
def getField : JVal → String → JVal
  | JVal.vobj fs, k => (fs.lookup k).getD JVal.vnull
  | _, _ => JVal.vnull

/-- Is the value an array (JS `Array.isArray`)? -/
def isArray : JVal → Bool
  | JVal.varr _ => true
  | _ => false

/-- Strict equality with the boolean `true` (JS `v === true`). -/
def isTrue : JVal → Bool
  | JVal.vbool true => true
  | _ => false

-- ---------- small string helpers (ASCII models of the JS string methods) ----------

/-- ASCII lowercasing, modelling `String.prototype.toLowerCase` on the ASCII
category/status texts the script compares. -/
def lowerAscii (s : String) : String := String.mk (s.data.map Char.toLower)

/-- Whitespace trimming from both ends, modelling `String.prototype.trim`. -/
def trimAscii (s : String) : String :=
  String.mk (((s.data.dropWhile Char.isWhitespace).reverse.dropWhile Char.isWhitespace).reverse)

/-- Split a character list at every occurrence of `sep`, modelling
`String.prototype.split` (so `"" ↦ [""]`, and empty pieces are kept). -/
def splitOnChar (sep : Char) (cs : List Char) : List (List Char) :=
  cs.foldr (fun c acc => if c = sep then [] :: acc else (c :: acc.headD []) :: acc.tail) [[]]

/-- Substring test, modelling `String.prototype.includes` (the empty needle is
contained in every string). -/
def strIncludes (s sub : String) : Bool :=
  s.data.tails.any (fun t => sub.data.isPrefixOf t)

/-- Value of a decimal digit character. -/
def digitVal (c : Char) : ℕ := c.toNat - '0'.toNat

/-- Numeric value of a list of decimal digit characters (most significant
first); the empty list reads as 0. -/
def natOfDigits (cs : List Char) : ℕ := cs.foldl (fun a c => a * 10 + digitVal c) 0

/-- Model of JS `Number(string)` on the decimal shapes relevant here: optional
surrounding whitespace, optional sign, integer digits, optional fraction.
`""` (and all-whitespace) converts to 0; anything unparsable is `none`
(standing for `NaN`).  Exponent/hex/`Infinity` forms are outside the modelled
input space. -/
def strToNum (s : String) : Option ℚ :=
  let t := trimAscii s
  if t = "" then some 0
  else
    let signAndRest : ℚ × List Char :=
      match t.data with
      | '-' :: rest => (-1, rest)
      | '+' :: rest => (1, rest)
      | rest => (1, rest)
    let intPart := signAndRest.2.takeWhile Char.isDigit
    let rest := signAndRest.2.dropWhile Char.isDigit
    match rest with
    | [] => if intPart.isEmpty then none else some (signAndRest.1 * natOfDigits intPart)
    | '.' :: frac =>
      if frac.all Char.isDigit ∧ (intPart ≠ [] ∨ frac ≠ []) then
        some (signAndRest.1 *
          ((natOfDigits intPart : ℚ) + (natOfDigits frac : ℚ) / (10 : ℚ) ^ frac.length))
      else none
    | _ => none

/-- Model of JS `String(v)` for the values reaching the script's `String(...)`
calls (a first-truthy field value or `""`).  Number formatting and the
element-joining of arrays are approximated — no claim feeds those shapes to
`String()`. -/
def jsToString : JVal → String
  | JVal.vnull => "null"
  | JVal.vbool b => if b then "true" else "false"
  | JVal.vnum q => if q.den = 1 then toString q.num else toString q
  | JVal.vstr s => s
  | JVal.varr _ => ""
  | JVal.vobj _ => "[object Object]"

-- ---------- flexible extractors (scripts/fetch_silverware_week.mjs:107-161) ----------

/-- `const num = (v) => (typeof v === "number" ? v : (v ? Number(v) : 0)) || 0;`
A number passes through (the trailing `|| 0` only rewrites `NaN`/`-0`, which
do not exist in the `ℚ` model); falsy values give 0; a truthy non-number is
converted with `Number(...)`, an unparsable result (`NaN`) becoming 0 through
`|| 0`.  `ToNumber` on arrays/objects goes through string coercion and yields
`NaN` on everything non-degenerate; it is modelled as 0 (= `NaN || 0`). -/
def num : JVal → ℚ
  | JVal.vnum q => q
  | JVal.vnull => 0
  | JVal.vbool b => if b then 1 else 0
  | JVal.vstr s => if s = "" then 0 else (strToNum s).getD 0
  | JVal.varr _ => 0
  | JVal.vobj _ => 0

/-- JS `a || b` on numbers produced by `num` (no `NaN`/`-0` cases remain). -/
def qOr (a b : ℚ) : ℚ := if a = 0 then b else a

/-- `orderLines(o)`: `o?.Lines || o?.Items || o?.OrderLines || o?.OrderItems ||
o?.CheckLines || []`. -/
def orderLines (o : JVal) : JVal :=
  jsOr (getField o "Lines")
    (jsOr (getField o "Items")
      (jsOr (getField o "OrderLines")
        (jsOr (getField o "OrderItems")
          (jsOr (getField o "CheckLines") (JVal.varr [])))))

/-- `lineTotal(line)`: `num(line?.NetTotal) || num(line?.LineTotal) ||
num(line?.ExtendedPrice) || num(line?.Total) || num(line?.Amount)`. -/
def lineTotal (line : JVal) : ℚ :=
  qOr (num (getField line "NetTotal"))
    (qOr (num (getField line "LineTotal"))
      (qOr (num (getField line "ExtendedPrice"))
        (qOr (num (getField line "Total")) (num (getField line "Amount")))))

/-- `lineDiscount(line)`: `num(line?.Discount) || num(line?.DiscountAmount) || 0`. -/
def lineDiscount (line : JVal) : ℚ :=
  qOr (num (getField line "Discount")) (qOr (num (getField line "DiscountAmount")) 0)

/-- `orderHeaderDiscount(o)`: `num(o?.DiscountTotal) || num(o?.PromotionsTotal)
|| num(o?.CheckDiscountTotal) || num(o?.TotalDiscount) || 0`. -/
def orderHeaderDiscount (o : JVal) : ℚ :=
  qOr (num (getField o "DiscountTotal"))
    (qOr (num (getField o "PromotionsTotal"))
      (qOr (num (getField o "CheckDiscountTotal"))
        (qOr (num (getField o "TotalDiscount")) 0)))

/-- `lineCategoryName(line)`: `String(line?.SalesCategoryName ||
line?.CategoryName || line?.MenuGroup || line?.Family || line?.Category ||
"").toLowerCase()`. -/
def lineCategoryName (line : JVal) : String :=
  lowerAscii (jsToString
    (jsOr (getField line "SalesCategoryName")
      (jsOr (getField line "CategoryName")
        (jsOr (getField line "MenuGroup")
          (jsOr (getField line "Family")
            (jsOr (getField line "Category") (JVal.vstr "")))))))

/-- `FOOD_HINTS`: the configured hint list, `(env || "food,kitchen")`
split on commas, trimmed, lowercased, with empty entries filtered out
(`.filter(Boolean)`). -/
def parseHints (env : String) : List String :=
  (((splitOnChar ',' env.data).map (fun cs => lowerAscii (trimAscii (String.mk cs)))).filter
    (fun h => h ≠ ""))

/-- The default hint configuration, `FOOD_CATEGORY_HINTS` unset. -/
def defaultFoodHints : List String := parseHints "food,kitchen"

/-- `looksLikeFood(line)`: some configured hint occurs as a substring of the
lowercased category name. -/
def looksLikeFood (hints : List String) (line : JVal) : Bool :=
  let name := lineCategoryName line
  hints.any (fun h => strIncludes name h)

/-- `isVoided(line)`: `line?.IsVoid === true || line?.Voided === true ||
s === "void" || s === "voided"` where `s = String(line?.Status || "").toLowerCase()`. -/
def isVoided (line : JVal) : Bool :=
  let s := lowerAscii (jsToString (jsOr (getField line "Status") (JVal.vstr "")))
  isTrue (getField line "IsVoid") || isTrue (getField line "Voided") ||
    s == "void" || s == "voided"

-- ---------- weekly aggregator (scripts/fetch_silverware_week.mjs:164-210) ----------

/-- The running per-location accumulators of `collectForWeek`:
`let orders = 0; let food = 0; let voids = 0; let promos = 0;`.
(The `start`/`end` strings also returned by `collectForWeek` are produced by
the time-window resolver, modelled separately as `rangeForWeekISO`.) -/
structure Totals where
  orders : ℕ
  food : ℚ
  voids : ℚ
  promos : ℚ
deriving DecidableEq

/-- The zero-initialised accumulators. -/
def initTotals : Totals := { orders := 0, food := 0, voids := 0, promos := 0 }

/-- The body of `for (const ln of lines)`: a voided line adds its clamped
amount to `voids` and `continue`s; otherwise a food-looking line adds its
clamped amount to `food`, and the clamped line discount is added to `promos`. -/
def processLine (hints : List String) (st : Totals) (ln : JVal) : Totals :=
  let amt := lineTotal ln
  if isVoided ln then
    { st with voids := st.voids + max amt 0 }
  else
    let st1 := if looksLikeFood hints ln then { st with food := st.food + max amt 0 } else st
    { st1 with promos := st1.promos + max (lineDiscount ln) 0 }

/-- Truthiness of `orderLines(row).length`: `.length` is a number on arrays
and strings (truthy iff non-zero) and `undefined` (falsy) on every other
value. -/
def lengthTruthy : JVal → Bool
  | JVal.varr xs => !xs.isEmpty
  | JVal.vstr s => !s.isEmpty
  | _ => false

/-- The element sequence produced by `for (const ln of lines)`: an array
iterates its elements and a string iterates its characters.  Other truthy
values are not iterable and make the JS loop throw (failing the location);
they are outside the modelled input space and yield no iterations here. -/
def linesOf : JVal → List JVal
  | JVal.varr xs => xs
  | JVal.vstr s => s.data.map (fun c => JVal.vstr (String.mk [c]))
  | _ => []

/-- The order identifier used for the detail fetch:
`row?.OrderID ?? row?.Id ?? row?.ID`. -/
def rowId (row : JVal) : JVal :=
  nullishOr (getField row "OrderID") (nullishOr (getField row "Id") (getField row "ID"))

/-- The body of `for (const row of rows)`.  `detail` is the oracle for
`getOrder(base, token, id)` — the full order returned by the detail endpoint
for a given id (network responses are inputs of the model).  The order count
is incremented, the (possibly re-fetched) order's lines are processed, and the
clamped header-level discount is added to `promos`. -/
def processRow (hints : List String) (detail : JVal → JVal) (st : Totals) (row : JVal) :
    Totals :=
  let st1 := { st with orders := st.orders + 1 }
  let o := if lengthTruthy (orderLines row) then row else detail (rowId row)
  let st2 := (linesOf (orderLines o)).foldl (processLine hints) st1
  { st2 with promos := st2.promos + max (orderHeaderDiscount o) 0 }

/-- Locating a page's row array in the response envelope:
`payload?.Orders || payload?.Data || payload || []`. -/
def rowsOf (payload : JVal) : JVal :=
  jsOr (getField payload "Orders") (jsOr (getField payload "Data") (jsOr payload (JVal.varr [])))

/-- The `while (more)` pagination loop.  `pages` is the sequence of response
payloads the upstream returns for pages 1, 2, …; a page requested beyond the
list returns an empty body (the upstream has no further data).  The returned
`ℕ` counts the `listOrders` requests issued.  A page whose located `rows` is
not an array or is empty stops the loop; otherwise the rows are processed and
the loop continues exactly when `rows.length >= 500`. -/
def collectPages (hints : List String) (detail : JVal → JVal) :
    List JVal → Totals → ℕ → Totals × ℕ
  | [], st, fetched => (st, fetched + 1)
  | payload :: rest, st, fetched =>
    match rowsOf payload with
    | JVal.varr rs =>
      if rs.isEmpty then (st, fetched + 1)
      else
        let st2 := rs.foldl (processRow hints detail) st
        if 500 ≤ rs.length then collectPages hints detail rest st2 (fetched + 1)
        else (st2, fetched + 1)
    | _ => (st, fetched + 1)

/-- `const round2 = (n) => Math.round(n * 100) / 100;` — `Math.round` rounds
half-up towards `+∞`, i.e. `Math.round(x) = ⌊x + 1/2⌋`. -/
def round2 (n : ℚ) : ℚ := (⌊n * 100 + 1/2⌋ : ℚ) / 100

/-- `collectForWeek` for one location: run the pagination loop from the
zero-initialised accumulators and round the three currency totals to cents.
Returns the totals together with the number of page requests issued. -/
def collectForWeek (hints : List String) (detail : JVal → JVal) (pages : List JVal) :
    Totals × ℕ :=
  let r := collectPages hints detail pages initTotals 0
  ({ orders := r.1.orders, food := round2 r.1.food, voids := round2 r.1.voids,
     promos := round2 r.1.promos }, r.2)

/-- A well-formed response envelope carrying `rs` as its row array, for
stating pagination facts. -/
def mkPage (rs : List JVal) : JVal := JVal.vobj [("Orders", JVal.varr rs)]

/-- The number of `listOrders` requests the pagination loop issues against a
given upstream page sequence. -/
def pagesRequested (hints : List String) (detail : JVal → JVal) (pages : List JVal) : ℕ :=
  (collectPages hints detail pages initTotals 0).2

-- ---------- time-window resolver (scripts/fetch_silverware_week.mjs:47-58) ----------

/-- Days since 1970-01-01 of the civil date `y-m-d` (proleptic Gregorian).
This is the arithmetic performed by `Date.UTC`, written with `Int.ediv`
(floor division, as every divisor is positive).  The formula is linear in `d`,
so out-of-range days roll over into adjacent months exactly as JS `Date`
normalisation does. -/
def daysFromCivil (y m d : ℤ) : ℤ :=
  let y1 := y - (if m ≤ 2 then 1 else 0)
  let era := y1.ediv 400
  let yoe := y1 - era * 400
  let doy := (153 * (m + (if 2 < m then -3 else 9)) + 2).ediv 5 + d - 1
  let doe := yoe * 365 + yoe.ediv 4 - yoe.ediv 100 + doy
  era * 146097 + doe - 719468

/-- Civil date `(y, m, d)` of a days-since-epoch count: the inverse calendar
computation used by the `getUTC*`/`toISOString` accessors. -/
def civilFromDays (z : ℤ) : ℤ × ℤ × ℤ :=
  let z1 := z + 719468
  let era := z1.ediv 146097
  let doe := z1 - era * 146097
  let yoe := (doe - doe.ediv 1460 + doe.ediv 36524 - doe.ediv 146096).ediv 365
  let y := yoe + era * 400
  let doy := doe - (365 * yoe + yoe.ediv 4 - yoe.ediv 100)
  let mp := (5 * doy + 2).ediv 153
  let d := doy - (153 * mp + 2).ediv 5 + 1
  let m := mp + (if mp < 10 then 3 else -9)
  (y + (if m ≤ 2 then 1 else 0), m, d)

/-- `d.getUTCMinutes()` on an epoch-milliseconds instant. -/
def getUTCMinutes (ms : ℤ) : ℤ := (ms.ediv 60000).emod 60

/-- `d.setUTCMinutes(mi)`: the minutes field is replaced and any out-of-range
value carries into the hours (each minute being exactly 60000 ms in UTC), so
the instant moves by `(mi - getUTCMinutes ms)` minutes. -/
def setUTCMinutes (ms mi : ℤ) : ℤ := ms + (mi - getUTCMinutes ms) * 60000

/-- `endDate.setUTCDate(endDate.getUTCDate() + 7)`: `setUTCDate` replaces the
day-of-month field, normalising an out-of-range day by carrying whole UTC days
(each exactly 86400000 ms — UTC has no DST), so setting it to the current day
plus 7 moves the instant by exactly 7 days. -/
def setUTCDatePlus7 (ms : ℤ) : ℤ := ms + 7 * 86400000

/-- `new Date(s + "T00:00:00Z")` for the date `y-m-d`: midnight UTC of that
civil date. -/
def mkInstant (y m d : ℤ) : ℤ := daysFromCivil y m d * 86400000

/-- `rangeForWeekISO` at the instant level: `mk` shifts the parsed midnight by
`-tzOffsetMin` minutes via `setUTCMinutes`, and the end instant adds 7 days
via `setUTCDate`. -/
def rangeForWeekMs (y m d tz : ℤ) : ℤ × ℤ :=
  let base := mkInstant y m d
  let start := setUTCMinutes base (getUTCMinutes base - tz)
  (start, setUTCDatePlus7 start)

/-- Left-pad a number to 2 digits. -/
def pad2 (n : ℕ) : String := if n < 10 then "0" ++ toString n else toString n

/-- Left-pad a number to 3 digits. -/
def pad3 (n : ℕ) : String :=
  if n < 10 then "00" ++ toString n else if n < 100 then "0" ++ toString n else toString n

/-- Left-pad a number to 4 digits. -/
def pad4 (n : ℕ) : String :=
  if n < 10 then "000" ++ toString n
  else if n < 100 then "00" ++ toString n
  else if n < 1000 then "0" ++ toString n
  else toString n

/-- `d.toISOString()` for non-negative epoch-milliseconds instants with
four-digit years (the only instants the script produces). -/
def toISOString (ms : ℤ) : String :=
  let days := ms.ediv 86400000
  let tod := (ms.emod 86400000).toNat
  let c := civilFromDays days
  pad4 c.1.toNat ++ "-" ++ pad2 c.2.1.toNat ++ "-" ++ pad2 c.2.2.toNat ++ "T" ++
    pad2 (tod / 3600000) ++ ":" ++ pad2 (tod / 60000 % 60) ++ ":" ++
    pad2 (tod / 1000 % 60) ++ "." ++ pad3 (tod % 1000) ++ "Z"

/-- Parse a `"YYYY-MM-DD"` week-start string.  Malformed input is `none`
(the script's behaviour on malformed dates is undefined — `new Date` yields
`Invalid Date` — and is out of scope, as in the spec). -/
def parseISODate (s : String) : Option (ℤ × ℤ × ℤ) :=
  match s.data with
  | [y1, y2, y3, y4, h1, m1, m2, h2, d1, d2] =>
    if h1 = '-' ∧ h2 = '-' ∧ [y1, y2, y3, y4, m1, m2, d1, d2].all Char.isDigit then
      some ((natOfDigits [y1, y2, y3, y4] : ℕ), ((natOfDigits [m1, m2] : ℕ) : ℤ),
        ((natOfDigits [d1, d2] : ℕ) : ℤ))
    else none
  | _ => none

/-- `rangeForWeekISO(iso, tzOffsetMin)`: `{ start, end }` as ISO strings. -/
def rangeForWeekISO (iso : String) (tz : ℤ) : Option (String × String) :=
  (parseISODate iso).map fun ymd =>
    let p := rangeForWeekMs ymd.1 ymd.2.1 ymd.2.2 tz
    (toISOString p.1, toISOString p.2)

-- ---------- override writer and main loop (scripts/fetch_silverware_week.mjs:212-241) ----------

/-- Connection settings of one configured location; an env var that is unset
(`undefined`) or empty is modelled as `""` (both are falsy in the
`!cfg.base || !cfg.token` check). -/
structure LocCfg where
  base : String
  token : String
deriving DecidableEq

/-- The document `writeOverrides` merge-writes for one location and week
(`last_run`, a wall-clock timestamp, is not modelled). -/
structure OverrideDoc where
  path : String
  food_sales : ℚ
  voids : ℚ
  comps : ℚ
  orders : ℕ
  days_scanned : ℕ
deriving DecidableEq

/-- `writeOverrides(locKey, weekISO, totals)`: the merged document at
`companies/aidan/locations/{locKey}/overrides/{weekISO}` mapping
food → `food_sales`, voids → `voids`, promos → `comps`, with the order count
and the fixed `days_scanned: 7` metadata. -/
def writeOverrides (locKey weekISO : String) (t : Totals) : OverrideDoc :=
  { path := "companies/aidan/locations/" ++ locKey ++ "/overrides/" ++ weekISO,
    food_sales := t.food, voids := t.voids, comps := t.promos,
    orders := t.orders, days_scanned := 7 }

/-- The per-location loop of `main()`: the outcome of one location's
`collectForWeek`-and-write pipeline is abstracted by the oracle `collect`
(`Except.error` standing for a raised, uncaught-at-that-point error).  A
location with missing connection settings is skipped with a warning; a
location whose pipeline raises is caught by the per-location `try/catch`,
contributing no write; a successful location contributes its override
document.  The returned list is the sequence of documents written. -/
def mainRun (weekISO : String) (collect : String → LocCfg → Except String Totals)
    (locs : List (String × LocCfg)) : List OverrideDoc :=
  locs.filterMap fun kc =>
    if kc.2.base = "" ∨ kc.2.token = "" then none
    else
      match collect kc.1 kc.2 with
      | Except.ok t => some (writeOverrides kc.1 weekISO t)
      | Except.error _ => none

-- ---------- specification-side probe functions (for the refinement claims) ----------

/-- The amount-extraction candidate fields, in priority order. -/
def amountFields : List String := ["NetTotal", "LineTotal", "ExtendedPrice", "Total", "Amount"]

/-- Modelled from the spec: probe the candidate numeric fields in order and
return the first whose coerced numeric value is non-zero, else zero. -/
def probeFirstNonzero (line : JVal) : List String → ℚ
  | [] => 0
  | f :: fs => let v := num (getField line f); if v = 0 then probeFirstNonzero line fs else v

/-- The line-collection candidate fields, in priority order. -/
def lineCollectionFields : List String :=
  ["Lines", "Items", "OrderLines", "OrderItems", "CheckLines"]

/-- Modelled from the spec: probe the candidate fields in order and return the
first present array, else an empty sequence. -/
def probeFirstArray (o : JVal) : List String → JVal
  | [] => JVal.varr []
  | f :: fs => let v := getField o f; if isArray v then v else probeFirstArray o fs

/-- Is a field value absent (`undefined`/`null`) or an array?  Under this
well-formedness condition the first-truthy chain of `orderLines` and the
first-present-array probe of the spec agree. -/
def isArrayOrNull : JVal → Bool
  | JVal.vnull => true
  | JVal.varr _ => true
  | _ => false

-- ---------- helper lemmas ----------

/-- Rewriting one step of a first-truthy chain when the candidate value is
absent or an array: the chain keeps exactly the first array. -/
theorem jsOr_arrayOrNull (v rest : JVal) (h : isArrayOrNull v = true) :
    jsOr v rest = if isArray v then v else rest := by
  cases v <;> simp_all [jsOr, truthy, isArray, isArrayOrNull]

/-- The spec-side probe always yields an array. -/
theorem probeFirstArray_isArray (o : JVal) :
    ∀ l : List String, isArray (probeFirstArray o l) = true := by
  intro l
  induction l with
  | nil => simp [probeFirstArray, isArray]
  | cons f fs ih => simp only [probeFirstArray]; split <;> simp_all

example : num (JVal.vstr "12.50") = 25/2 := by with_unfolding_all decide
example : num (JVal.vstr "abc") = 0 := by with_unfolding_all decide
example : lineTotal (JVal.vobj [("NetTotal", JVal.vnum 3), ("LineTotal", JVal.vnum 4)]) = 3 := by
  with_unfolding_all decide
example : isVoided (JVal.vobj [("Status", JVal.vstr "VOID")]) = true := by decide
example : looksLikeFood defaultFoodHints
    (JVal.vobj [("CategoryName", JVal.vstr "Kitchen - Hot Line")]) = true := by decide
example : parseHints "food,kitchen" = ["food", "kitchen"] := by decide
example :
    collectForWeek defaultFoodHints (fun v => v)
      [mkPage
        [JVal.vobj [("Lines", JVal.varr
            [JVal.vobj [("CategoryName", JVal.vstr "Food"), ("Amount", JVal.vnum 10)],
             JVal.vobj [("Discount", JVal.vnum 2)]])],
         JVal.vobj [("Lines", JVal.varr
            [JVal.vobj [("IsVoid", JVal.vbool true), ("Amount", JVal.vnum 5)]]),
           ("DiscountTotal", JVal.vnum 1)]]] =
      ({ orders := 2, food := 10, voids := 5, promos := 3 }, 1) := by
  with_unfolding_all decide

-- ---------- claim C1 ----------

/-- Claim C1, counterexample: a line classified as voided (here `IsVoid:
true`) with a positive extracted discount (`Discount: 5`) contributes nothing
to the promotions total — the `continue` taken on the voided branch skips the
`promos += Math.max(lineDiscount(ln), 0)` statement — refuting the claim that
a voided line still contributes its discount to the promotions total. -/
theorem c1_counterexample :
    isVoided (JVal.vobj [("IsVoid", JVal.vbool true), ("Discount", JVal.vnum 5)]) = true ∧
    lineDiscount (JVal.vobj [("IsVoid", JVal.vbool true), ("Discount", JVal.vnum 5)]) = 5 ∧
    (processLine defaultFoodHints initTotals
        (JVal.vobj [("IsVoid", JVal.vbool true), ("Discount", JVal.vnum 5)])).promos = 0 ∧
    (processLine defaultFoodHints initTotals
          (JVal.vobj [("IsVoid", JVal.vbool true), ("Discount", JVal.vnum 5)])).promos ≠
      initTotals.promos +
        max (lineDiscount (JVal.vobj [("IsVoid", JVal.vbool true), ("Discount", JVal.vnum 5)])) 0 := by
  with_unfolding_all decide

/-- Claim C1 (amended): a line's clamped discount is added to the promotions
total exactly when the line is not classified as voided — independently of the
food classification — while a voided line leaves the promotions total
unchanged. -/
theorem c1_promos_iff_not_voided (hints : List String) (st : Totals) (ln : JVal) :
    (processLine hints st ln).promos =
      if isVoided ln then st.promos else st.promos + max (lineDiscount ln) 0 := by
  unfold processLine
  split_ifs with h1 h2 <;> simp

-- ---------- claim C3 ----------

/-- Claim C3: an order line for which the void classifier returns true adds
its amount, clamped to non-negative, to the voided total and leaves the food
total unchanged, for any category label the line carries. -/
theorem c3_voided_excluded_from_food (hints : List String) (st : Totals) (ln : JVal)
    (h : isVoided ln = true) :
    (processLine hints st ln).voids = st.voids + max (lineTotal ln) 0 ∧
    (processLine hints st ln).food = st.food := by
  unfold processLine
  rw [h]
  simp

/-- Claim C3, witness: a concrete voided line carrying a food category label
and amount 7 goes entirely to the voided total. -/
theorem c3_witness :
    (processLine defaultFoodHints initTotals
        (JVal.vobj [("IsVoid", JVal.vbool true), ("CategoryName", JVal.vstr "Food"),
          ("Amount", JVal.vnum 7)])).voids =
      initTotals.voids +
        max (lineTotal (JVal.vobj [("IsVoid", JVal.vbool true),
          ("CategoryName", JVal.vstr "Food"), ("Amount", JVal.vnum 7)])) 0 ∧
    (processLine defaultFoodHints initTotals
        (JVal.vobj [("IsVoid", JVal.vbool true), ("CategoryName", JVal.vstr "Food"),
          ("Amount", JVal.vnum 7)])).food = initTotals.food :=
  c3_voided_excluded_from_food defaultFoodHints initTotals _ (by decide)

-- ---------- claim C5 ----------

/-- Claim C5: `lineTotal` probes `NetTotal`, `LineTotal`, `ExtendedPrice`,
`Total`, `Amount` in that fixed order and returns the first candidate whose
coerced numeric value is non-zero, else zero; in particular when both
`NetTotal` and `LineTotal` coerce to non-zero numbers the `NetTotal` value is
returned. -/
theorem c5_lineTotal_probe_order (ln : JVal) :
    lineTotal ln = probeFirstNonzero ln amountFields ∧
    (num (getField ln "NetTotal") ≠ 0 → num (getField ln "LineTotal") ≠ 0 →
      lineTotal ln = num (getField ln "NetTotal")) := by
  constructor
  · simp only [lineTotal, amountFields, probeFirstNonzero, qOr]
    by_cases h : num (getField ln "Amount") = 0 <;> simp [h]
  · intro h1 _
    simp [lineTotal, qOr, h1]

/-- Claim C5, witness: on a record with `NetTotal: 3` and `LineTotal: 4` the
extracted amount is the `NetTotal` value. -/
theorem c5_witness :
    lineTotal (JVal.vobj [("NetTotal", JVal.vnum 3), ("LineTotal", JVal.vnum 4)]) =
      num (getField (JVal.vobj [("NetTotal", JVal.vnum 3), ("LineTotal", JVal.vnum 4)])
        "NetTotal") :=
  (c5_lineTotal_probe_order _).2 (by with_unfolding_all decide) (by with_unfolding_all decide)

-- ---------- claim C6 ----------

/-- Claim C6, counterexample: a record whose `Lines` field holds a truthy
non-array (the string `"abc"`) makes `orderLines` return that non-array value
— the chain keeps the first truthy candidate, not the first array — refuting
the claim that `orderLines` never returns a non-array value. -/
theorem c6_counterexample :
    orderLines (JVal.vobj [("Lines", JVal.vstr "abc")]) = JVal.vstr "abc" ∧
    isArray (JVal.vstr "abc") = false := by
  constructor
  · rfl
  · rfl

/-- Claim C6 (amended): `orderLines` probes `Lines`, `Items`, `OrderLines`,
`OrderItems`, `CheckLines` in that order and returns the first truthy
candidate value, else an empty array; when every candidate field is absent or
holds an array — truthy non-array candidate values can be returned as-is —
this is exactly the first present array, and the result is an array. -/
theorem c6_orderLines_first_array (o : JVal)
    (h : lineCollectionFields.all (fun f => isArrayOrNull (getField o f)) = true) :
    orderLines o = probeFirstArray o lineCollectionFields ∧
    isArray (orderLines o) = true := by
  simp only [lineCollectionFields, List.all_cons, List.all_nil, Bool.and_true,
    Bool.and_eq_true] at h
  obtain ⟨h1, h2, h3, h4, h5⟩ := h
  have e : orderLines o = probeFirstArray o lineCollectionFields := by
    simp only [orderLines, lineCollectionFields, probeFirstArray]
    rw [jsOr_arrayOrNull _ _ h1, jsOr_arrayOrNull _ _ h2, jsOr_arrayOrNull _ _ h3,
      jsOr_arrayOrNull _ _ h4, jsOr_arrayOrNull _ _ h5]
  exact ⟨e, e ▸ probeFirstArray_isArray o _⟩

/-- Claim C6, witness: on a record whose only candidate field is the array
`Items`, `orderLines` returns that array and the probe agrees. -/
theorem c6_witness :
    orderLines (JVal.vobj [("Items", JVal.varr [JVal.vnum 1])]) =
      probeFirstArray (JVal.vobj [("Items", JVal.varr [JVal.vnum 1])]) lineCollectionFields ∧
    isArray (orderLines (JVal.vobj [("Items", JVal.varr [JVal.vnum 1])])) = true :=
  c6_orderLines_first_array _ (by decide)

-- ---------- claim C10 ----------

/-- Claim C10: a line whose extracted category name is empty is never
classified as food, for any configured hint string: the hint list is filtered
to non-empty entries, and no non-empty string is a substring of `""`. -/
theorem c10_empty_category_not_food (env : String) (line : JVal)
    (h : lineCategoryName line = "") :
    looksLikeFood (parseHints env) line = false := by
  unfold looksLikeFood
  rw [h, List.any_eq_false]
  intro hint hmem
  have hne : hint ≠ "" := by
    unfold parseHints at hmem
    have := List.of_mem_filter hmem
    simpa using this
  have hdata : hint.data ≠ [] := by
    intro hnil
    apply hne
    obtain ⟨cs⟩ := hint
    simp only at hnil
    subst hnil
    rfl
  rw [Bool.not_eq_true]
  show strIncludes "" hint = false
  unfold strIncludes
  have : ("" : String).data = [] := rfl
  rw [this]
  cases hd : hint.data with
  | nil => exact absurd hd hdata
  | cons c cs => simp [List.tails, List.isPrefixOf]

/-- Claim C10, witness: a line with no category fields has category name `""`
and is not food under the default hint configuration. -/
theorem c10_witness : looksLikeFood (parseHints "food,kitchen") (JVal.vobj []) = false :=
  c10_empty_category_not_food "food,kitchen" (JVal.vobj []) (by decide)

-- ---------- claim C2 ----------

/-- Each of the three currency accumulators is monotone under one line: every
contribution is clamped with `Math.max(·, 0)` before being added. -/
theorem processLine_le (hints : List String) (st : Totals) (ln : JVal) :
    st.food ≤ (processLine hints st ln).food ∧
    st.voids ≤ (processLine hints st ln).voids ∧
    st.promos ≤ (processLine hints st ln).promos := by
  have h1 : (0 : ℚ) ≤ max (lineTotal ln) 0 := le_max_right _ _
  have h2 : (0 : ℚ) ≤ max (lineDiscount ln) 0 := le_max_right _ _
  unfold processLine
  split_ifs <;> refine ⟨?_, ?_, ?_⟩ <;> simp only [] <;> linarith

/-- Folding a step that is monotone on the three currency accumulators over a
list is monotone. -/
theorem foldl_totals_le {f : Totals → JVal → Totals}
    (hf : ∀ st x, st.food ≤ (f st x).food ∧ st.voids ≤ (f st x).voids ∧
      st.promos ≤ (f st x).promos) :
    ∀ (xs : List JVal) (st : Totals),
      st.food ≤ (xs.foldl f st).food ∧ st.voids ≤ (xs.foldl f st).voids ∧
      st.promos ≤ (xs.foldl f st).promos := by
  intro xs
  induction xs with
  | nil => intro st; simp
  | cons x xs ih =>
    intro st
    have h1 := hf st x
    have h2 := ih (f st x)
    simp only [List.foldl_cons]
    exact ⟨le_trans h1.1 h2.1, le_trans h1.2.1 h2.2.1, le_trans h1.2.2 h2.2.2⟩

/-- One order row never decreases any of the three currency accumulators. -/
theorem processRow_le (hints : List String) (detail : JVal → JVal) (st : Totals) (row : JVal) :
    st.food ≤ (processRow hints detail st row).food ∧
    st.voids ≤ (processRow hints detail st row).voids ∧
    st.promos ≤ (processRow hints detail st row).promos := by
  unfold processRow
  have hfold := foldl_totals_le (processLine_le hints)
    (linesOf (orderLines (if lengthTruthy (orderLines row) then row else detail (rowId row))))
    { st with orders := st.orders + 1 }
  have hhd : (0 : ℚ) ≤ max (orderHeaderDiscount
      (if lengthTruthy (orderLines row) then row else detail (rowId row))) 0 :=
    le_max_right _ _
  refine ⟨?_, ?_, ?_⟩ <;> simp only [] <;>
    [exact hfold.1; exact hfold.2.1; exact le_trans hfold.2.2 (by linarith)]

/-- The pagination loop never decreases any of the three currency
accumulators. -/
theorem collectPages_le (hints : List String) (detail : JVal → JVal) :
    ∀ (pages : List JVal) (st : Totals) (n : ℕ),
      st.food ≤ (collectPages hints detail pages st n).1.food ∧
      st.voids ≤ (collectPages hints detail pages st n).1.voids ∧
      st.promos ≤ (collectPages hints detail pages st n).1.promos := by
  intro pages
  induction pages with
  | nil => intro st n; simp [collectPages]
  | cons payload rest ih =>
    intro st n
    cases hr : rowsOf payload <;> simp only [collectPages, hr]
    case varr rs =>
      have hfold := foldl_totals_le (fun st x => processRow_le hints detail st x) rs st
      split_ifs with he hlen
      · exact ⟨le_refl _, le_refl _, le_refl _⟩
      · have h2 := ih (rs.foldl (processRow hints detail) st) (n + 1)
        exact ⟨le_trans hfold.1 h2.1, le_trans hfold.2.1 h2.2.1, le_trans hfold.2.2 h2.2.2⟩
      · exact hfold
    all_goals exact ⟨le_refl _, le_refl _, le_refl _⟩

/-- Rounding to cents preserves non-negativity. -/
theorem round2_nonneg (q : ℚ) (h : 0 ≤ q) : 0 ≤ round2 q := by
  unfold round2
  have hfl : (0 : ℤ) ≤ ⌊q * 100 + 1/2⌋ := Int.le_floor.mpr (by push_cast; linarith)
  have : (0 : ℚ) ≤ (⌊q * 100 + 1/2⌋ : ℚ) := by exact_mod_cast hfl
  linarith

/-- Claim C2: every contribution to a running total is clamped to zero before
being added, so no line can decrease a total, and for every sequence of
upstream pages and line records — negative or non-numeric amounts included —
the aggregator's final rounded totals satisfy `food ≥ 0`, `voids ≥ 0`,
`promos ≥ 0`. -/
theorem c2_totals_nonneg :
    (∀ (hints : List String) (st : Totals) (ln : JVal),
      st.food ≤ (processLine hints st ln).food ∧
      st.voids ≤ (processLine hints st ln).voids ∧
      st.promos ≤ (processLine hints st ln).promos) ∧
    (∀ (hints : List String) (detail : JVal → JVal) (pages : List JVal),
      0 ≤ (collectForWeek hints detail pages).1.food ∧
      0 ≤ (collectForWeek hints detail pages).1.voids ∧
      0 ≤ (collectForWeek hints detail pages).1.promos) := by
  refine ⟨processLine_le, fun hints detail pages => ?_⟩
  have h := collectPages_le hints detail pages initTotals 0
  simp only [initTotals] at h
  unfold collectForWeek
  exact ⟨round2_nonneg _ h.1, round2_nonneg _ h.2.1, round2_nonneg _ h.2.2⟩

-- ---------- claim C4 ----------

/-- A well-formed page envelope carries its rows. -/
theorem rowsOf_mkPage (rs : List JVal) : rowsOf (mkPage rs) = JVal.varr rs := rfl

/-- The request count of the pagination loop is independent of the
accumulator state and shifts with the starting counter. -/
theorem collectPages_count (hints : List String) (detail : JVal → JVal) :
    ∀ (pages : List JVal) (st : Totals) (n : ℕ),
      (collectPages hints detail pages st n).2 =
        (collectPages hints detail pages initTotals 0).2 + n := by
  intro pages
  induction pages with
  | nil => intro st n; simp [collectPages]; omega
  | cons payload rest ih =>
    intro st n
    cases hr : rowsOf payload <;> simp only [collectPages, hr]
    case varr rs =>
      split_ifs with he hlen
      · omega
      · rw [ih (rs.foldl (processRow hints detail) st) (n + 1),
          ih (rs.foldl (processRow hints detail) initTotals) 1]
        omega
      · omega
    all_goals omega

/-- Running the loop over full pages (exactly 500 rows each) followed by a
final short page issues exactly one request per page: the short page is
requested and then paging stops, whatever pages would follow. -/
theorem collectPages_full_then_short (hints : List String) (detail : JVal → JVal) :
    ∀ (pss : List (List JVal)) (last junk : List JVal) (st : Totals) (n : ℕ),
      (∀ rs ∈ pss, List.length rs = 500) → last.length < 500 →
      (collectPages hints detail ((pss ++ [last]).map mkPage ++ junk) st n).2 =
        pss.length + 1 + n := by
  intro pss
  induction pss with
  | nil =>
    intro last junk st n _ hlast
    simp only [List.nil_append, List.map_cons, List.map_nil, List.cons_append, List.nil_append,
      collectPages, rowsOf_mkPage]
    by_cases he : last.isEmpty
    · simp [he]
      omega
    · have hnot : ¬ 500 ≤ last.length := by omega
      simp [he, hnot]
      omega
  | cons p pss ih =>
    intro last junk st n hfull hlast
    have hp : p.length = 500 := hfull p (by simp)
    have hne : ¬ p.isEmpty := by
      cases p
      · simp at hp
      · simp
    simp only [List.cons_append, List.map_cons, collectPages, rowsOf_mkPage]
    rw [if_neg (by simp_all), if_pos (by omega)]
    show (collectPages hints detail ((pss ++ [last]).map mkPage ++ junk)
        (List.foldl (processRow hints detail) st p) (n + 1)).2 = (p :: pss).length + 1 + n
    rw [ih last junk _ (n + 1) (fun rs hrs => hfull rs (by simp [hrs])) hlast]
    simp only [List.length_cons]
    omega

/-- Claim C4: the pagination loop stops exactly when a page yields fewer than
500 rows — after any run of exactly-500-row pages, a final page of fewer than
500 rows (first conjunct) or an empty page (second conjunct) is the last
request issued, whatever further pages the upstream could serve; and after a
page of exactly 500 rows the next page is requested (third conjunct). -/
theorem c4_pagination_termination (hints : List String) (detail : JVal → JVal) :
    (∀ (pss : List (List JVal)) (last junk : List JVal),
      (∀ rs ∈ pss, List.length rs = 500) → last.length < 500 →
      pagesRequested hints detail ((pss ++ [last]).map mkPage ++ junk) = pss.length + 1) ∧
    (∀ (pss : List (List JVal)) (junk : List JVal),
      (∀ rs ∈ pss, List.length rs = 500) →
      pagesRequested hints detail ((pss ++ [([] : List JVal)]).map mkPage ++ junk) =
        pss.length + 1) ∧
    (∀ (rs : List JVal) (rest : List JVal), List.length rs = 500 →
      pagesRequested hints detail (mkPage rs :: rest) =
        pagesRequested hints detail rest + 1) := by
  refine ⟨?_, ?_, ?_⟩
  · intro pss last junk hfull hlast
    unfold pagesRequested
    rw [collectPages_full_then_short hints detail pss last junk initTotals 0 hfull hlast]
  · intro pss junk hfull
    unfold pagesRequested
    rw [collectPages_full_then_short hints detail pss [] junk initTotals 0 hfull (by simp)]
  · intro rs rest hlen
    have hne : ¬ rs.isEmpty := by
      cases rs
      · simp at hlen
      · simp
    unfold pagesRequested
    simp only [collectPages, rowsOf_mkPage]
    rw [if_neg (by simp_all), if_pos (by omega)]
    rw [collectPages_count hints detail rest (rs.foldl (processRow hints detail) initTotals) 1]

/-- Claim C4, witness: a single upstream page of one row (fewer than 500) is
requested exactly once. -/
theorem c4_witness :
    pagesRequested defaultFoodHints (fun v => v)
      ((([] : List (List JVal)) ++ [[JVal.vobj []]]).map mkPage ++ ([] : List JVal)) =
      List.length ([] : List (List JVal)) + 1 :=
  (c4_pagination_termination defaultFoodHints (fun v => v)).1 [] [JVal.vobj []] []
    (by simp) (by decide)

-- ---------- claim C7 ----------

/-- Claim C7: the week-window resolver returns `start` = midnight UTC of the
week-start date shifted by minus the timezone offset (in minutes) and `end` =
`start` plus exactly 7 days; concretely, for `"2025-10-06"` with offset
`-240` it returns `2025-10-06T04:00:00.000Z` and `2025-10-13T04:00:00.000Z`. -/
theorem c7_week_window :
    (∀ y m d tz : ℤ,
      (rangeForWeekMs y m d tz).1 = mkInstant y m d - tz * 60000 ∧
      (rangeForWeekMs y m d tz).2 = (rangeForWeekMs y m d tz).1 + 7 * 86400000) ∧
    rangeForWeekISO "2025-10-06" (-240) =
      some ("2025-10-06T04:00:00.000Z", "2025-10-13T04:00:00.000Z") := by
  constructor
  · intro y m d tz
    constructor
    · simp only [rangeForWeekMs, setUTCMinutes]
      ring
    · simp only [rangeForWeekMs, setUTCDatePlus7]
  · decide

-- ---------- claim C8 ----------

/-- Claim C8: a location whose aggregation pipeline raises an unrecovered
error produces no override document, and the documents written for the other
locations are exactly those written had the failing location not been
configured at all — a failure in one location never aborts another
location's run. -/
theorem c8_failure_isolation (weekISO : String)
    (collect : String → LocCfg → Except String Totals)
    (pre post : List (String × LocCfg)) (k : String) (cfg : LocCfg)
    (h : ∃ e, collect k cfg = Except.error e) :
    mainRun weekISO collect (pre ++ (k, cfg) :: post) =
      mainRun weekISO collect pre ++ mainRun weekISO collect post := by
  obtain ⟨e, he⟩ := h
  unfold mainRun
  rw [List.filterMap_append, List.filterMap_cons]
  simp only [he]
  split_ifs <;> rfl

/-- Claim C8, witness: with a concrete pipeline that fails for the middle
location, that location's document is absent and the two neighbours are
written exactly as in runs without it. -/
theorem c8_witness :
    mainRun "2025-10-06"
        (fun k _ => if k = "bad" then Except.error "boom" else Except.ok initTotals)
        ([("beacon", ⟨"b", "t"⟩)] ++ ("bad", (⟨"b", "t"⟩ : LocCfg)) :: [("tulia", ⟨"b", "t"⟩)]) =
      mainRun "2025-10-06"
          (fun k _ => if k = "bad" then Except.error "boom" else Except.ok initTotals)
          [("beacon", ⟨"b", "t"⟩)] ++
        mainRun "2025-10-06"
          (fun k _ => if k = "bad" then Except.error "boom" else Except.ok initTotals)
          [("tulia", ⟨"b", "t"⟩)] :=
  c8_failure_isolation "2025-10-06" _ _ _ "bad" ⟨"b", "t"⟩ ⟨"boom", by simp⟩

-- ---------- claim C9 ----------

/-- Claim C9: the final rounding step (scale by 100, round half-up, divide by
100) returns a value with at most 2 decimal places unchanged, and is
therefore idempotent: rounding the aggregator's totals twice equals rounding
them once. -/
theorem c9_round2_idempotent :
    (∀ q : ℚ, (∃ n : ℤ, q * 100 = (n : ℚ)) → round2 q = q) ∧
    (∀ q : ℚ, round2 (round2 q) = round2 q) := by
  have key : ∀ q : ℚ, (∃ n : ℤ, q * 100 = (n : ℚ)) → round2 q = q := by
    rintro q ⟨n, hn⟩
    unfold round2
    rw [hn]
    have hfloor : ⌊(n : ℚ) + 1/2⌋ = n := by
      rw [add_comm, Int.floor_add_int]
      norm_num
    rw [hfloor]
    have h100 : (100 : ℚ) ≠ 0 := by norm_num
    field_simp
    linarith [hn]
  refine ⟨key, fun q => ?_⟩
  apply key
  refine ⟨⌊q * 100 + 1/2⌋, ?_⟩
  unfold round2
  field_simp

/-- Claim C9, witness: `0.25` already has two decimal places and rounds to
itself. -/
theorem c9_witness :
    (∃ n : ℤ, (1/4 : ℚ) * 100 = (n : ℚ)) ∧ round2 (1/4) = 1/4 :=
  ⟨⟨25, by norm_num⟩, c9_round2_idempotent.1 (1/4) ⟨25, by norm_num⟩⟩

end Silverware
